import Mathlib

/-!
# Verification of the calendar / task logic of the belajar-pintar-ku app

Shallow embedding of the data model and the pure cores of the application:

* the two sibling calendar materializers
  (`CalendarPage.generateCalendarEvents` in the calendar page and
  `CalendarWidget.generateCalendarEvents` in the dashboard calendar widget),
* the day classifier `getDateClassName` (identical in both files),
* the persisted schema of the migration (foreign key `ON DELETE CASCADE`,
  `update_tasks_updated_at` trigger) and the page-level operations
  `SubjectsPage.deleteSubject` and `TasksPage.toggleTaskComplete`,
* the notification poller `useNotifications.checkUpcomingItems`,
* the due-date serialization of `TaskForm.onSubmit`.

Date/time model: a SQL `DATE` value (equivalently a `"YYYY-MM-DD"` string) is
represented by its epoch day number (`Int`, day 0 = 1970-01-01).  A JavaScript
`Date` (an instant) is represented by its minutes since the Unix epoch (`Int`);
the locale is a fixed UTC offset `ofs` in minutes (minutes east of UTC, e.g.
UTC-5 is `ofs = -300`).  DST is not modelled (fixed-offset locale).
-/

namespace BelajarPintar

/-- Gregorian civil date → epoch day number (days since 1970-01-01).
This is the standard civil-from-days arithmetic; it lets concrete statements
name calendar dates such as 2025-03-01. -/
def daysFromCivil (y m d : Int) : Int :=
  let y2 : Int := if m ≤ 2 then y - 1 else y
  let era : Int := (if 0 ≤ y2 then y2 else y2 - 399) / 400
  let yoe : Int := y2 - era * 400
  let mp : Int := (m + 9) % 12
  let doy : Int := (153 * mp + 2) / 5 + d - 1
  let doe : Int := yoe * 365 + yoe / 4 - yoe / 100 + doy
  era * 146097 + doe - 719468

example : daysFromCivil 1970 1 1 = 0 := by decide
example : daysFromCivil 2025 3 1 = 20148 := by decide
example : daysFromCivil 2025 2 28 = 20147 := by decide

/-- Local calendar day (epoch day number) in which the instant `t`
(minutes since epoch, UTC) falls, in a locale with fixed UTC offset
`ofs` minutes. -/
def localDay (ofs t : Int) : Int := (t + ofs) / 1440

/-- The instant (minutes since epoch) of local midnight of epoch day `d` in a
locale with UTC offset `ofs`: the value of the JavaScript expression
`new Date(dateString + "T00:00:00")` when `dateString` names day `d`. -/
def localMidnight (ofs d : Int) : Int := d * 1440 - ofs

/-- The instant of UTC midnight of epoch day `d`: the value of the JavaScript
expression `new Date(dateString)` for a bare `"YYYY-MM-DD"` string naming day
`d` (the ECMAScript date-only form is parsed as UTC). -/
def utcMidnight (d : Int) : Int := d * 1440

/-- JavaScript `Date.prototype.getDay` for (the local midnight of) epoch day
`d`: weekday with Sunday = 0; epoch day 0 (1970-01-01) was a Thursday (4). -/
def jsGetDay (d : Int) : Int := (d + 4) % 7

example : jsGetDay (daysFromCivil 2025 3 3) = 1 := by decide

/-! ## Client-side data model

The `Subject` and `Task` interfaces shared by the calendar page, the calendar
widget, the tasks page and the notification hook.  The `"HH:MM"` time-of-day
strings of a subject are represented by their parsed hour/minute pairs (the
code reads them via `start_time.split(':').map(Number)`), and the joined
`subjects (name, color)` sub-object of a task by an optional name/color pair. -/

/-- A row of the `subjects` entity as seen by the client pages. -/
structure Subject where
  id : String
  name : String
  day_of_week : Int
  startHours : Int
  startMinutes : Int
  endHours : Int
  endMinutes : Int
  location : Option String
  color : String
deriving DecidableEq, Repr

/-- A row of the `tasks` entity as seen by the client pages. -/
structure Task where
  id : String
  title : String
  description : Option String
  due_date : Int
  priority : Int
  is_completed : Bool
  subject_id : Option String
  subjectJoin : Option (String × String)
deriving DecidableEq, Repr

/-! ## Calendar events -/

/-- The `data` field of a `CalendarEvent`: the TypeScript union
`Subject | Task`, discriminated by the sibling `type` field. -/
inductive EventData where
  | subject (s : Subject)
  | task (t : Task)
deriving DecidableEq, Repr

/-- A materialized calendar occurrence
`{type: "subject"|"task", data, date}`; `date` is an instant in minutes since
epoch. -/
structure CalendarEvent where
  data : EventData
  date : Int
deriving DecidableEq, Repr

/-- The `type` discriminant string of an event. -/
def CalendarEvent.type : CalendarEvent → String
  | ⟨.subject _, _⟩ => "subject"
  | ⟨.task _, _⟩ => "task"

/-- The `(e.data as Task).is_completed` access used by `getDateClassName`
(read only under an `e.type === "task"` guard; `false` for a subject event). -/
def CalendarEvent.taskIsCompleted : CalendarEvent → Bool
  | ⟨.task t, _⟩ => t.is_completed
  | ⟨.subject _, _⟩ => false

/-- The calendar days from `s` to `e` inclusive: the days visited by the
`while (currentDate <= monthEnd)` loop when `monthStart` is local midnight of
day `s` and `monthEnd` lies inside day `e` (empty when `e < s`). -/
def daysInRange (s e : Int) : List Int :=
  (List.range (e + 1 - s).toNat).map (fun i => s + i)

namespace CalendarPage

/-- `generateCalendarEvents` of the calendar page (`CalendarPage`):
for every day of the range and every subject whose `day_of_week` equals the
day's weekday, push a subject event dated at that day; then for every task
push one task event dated `new Date(task.due_date + "T00:00:00")`, i.e.
anchored at *local* midnight of `due_date`. -/
def generateCalendarEvents (ofs : Int) (subjects : List Subject)
    (tasks : List Task) (s e : Int) : List CalendarEvent :=
  ((daysInRange s e).flatMap (fun d =>
    (subjects.filter (fun subject => jsGetDay d == subject.day_of_week)).map
      (fun subject => { data := .subject subject, date := localMidnight ofs d })))
  ++ tasks.map (fun task =>
      { data := .task task, date := localMidnight ofs task.due_date })

end CalendarPage

namespace CalendarWidget

/-- `generateCalendarEvents` of the dashboard calendar widget
(`CalendarWidget`): identical subject loop, but each task event is dated
`new Date(task.due_date)`, i.e. the bare date-only parse anchored at *UTC*
midnight of `due_date`. -/
def generateCalendarEvents (ofs : Int) (subjects : List Subject)
    (tasks : List Task) (s e : Int) : List CalendarEvent :=
  ((daysInRange s e).flatMap (fun d =>
    (subjects.filter (fun subject => jsGetDay d == subject.day_of_week)).map
      (fun subject => { data := .subject subject, date := localMidnight ofs d })))
  ++ tasks.map (fun task =>
      { data := .task task, date := utcMidnight task.due_date })

end CalendarWidget

/-- `getEventsForDate`: the events whose `date` falls on the same local
calendar day as `date` (date-fns `isSameDay`).  Identical in `CalendarPage`
and `CalendarWidget`. -/
def getEventsForDate (ofs : Int) (events : List CalendarEvent) (date : Int) :
    List CalendarEvent :=
  events.filter (fun e => localDay ofs e.date == localDay ofs date)

/-- `getDateClassName`: the day classifier, character-identical in
`CalendarPage` and `CalendarWidget`.  Returns the CSS class string of the
calendar cell for `date`. -/
def getDateClassName (ofs : Int) (events : List CalendarEvent) (date : Int) :
    String :=
  let dayEvents := getEventsForDate ofs events date
  if dayEvents.length = 0 then "" else
  let hasSubjects := dayEvents.any (fun e => e.type == "subject")
  let hasTasks := dayEvents.any (fun e => e.type == "task" && !e.taskIsCompleted)
  let hasCompletedTasks :=
    dayEvents.any (fun e => e.type == "task" && e.taskIsCompleted)
  if hasSubjects && hasTasks then
    "bg-gradient-to-br from-primary/30 to-warning/30 hover:from-primary/40 hover:to-warning/40"
  else if hasSubjects then "bg-primary/30 hover:bg-primary/40"
  else if hasTasks then "bg-warning/30 hover:bg-warning/40"
  else if hasCompletedTasks then "bg-success/30 hover:bg-success/40"
  else ""

/-! ## Persisted schema (migration 20250807062504)

`public.subjects` and `public.tasks` with their full column sets.  `TIME`
columns are hour/minute pairs, `DATE` columns epoch day numbers, timestamps
instants (`Int`).  `tasks.subject_id UUID REFERENCES public.subjects(id)
ON DELETE CASCADE` and the `update_tasks_updated_at` trigger
(`BEFORE UPDATE ... SET NEW.updated_at = now()`) are modelled in the
operations below. -/

/-- A persisted `public.subjects` row. -/
structure SubjectRow where
  id : String
  user_id : String
  name : String
  day_of_week : Int
  startHours : Int
  startMinutes : Int
  endHours : Int
  endMinutes : Int
  location : Option String
  color : String
  created_at : Int
  updated_at : Int
deriving DecidableEq, Repr

/-- A persisted `public.tasks` row. -/
structure TaskRow where
  id : String
  user_id : String
  subject_id : Option String
  title : String
  description : Option String
  due_date : Int
  priority : Int
  is_completed : Bool
  created_at : Int
  updated_at : Int
deriving DecidableEq, Repr

/-- The user's rows of the two tables (row-level security scopes both tables
to one user, so one user's view suffices). -/
structure Database where
  subjects : List SubjectRow
  tasks : List TaskRow
deriving DecidableEq, Repr

/-- `SubjectsPage.deleteSubject`: `DELETE FROM subjects WHERE id = ?`.
Because `tasks.subject_id` carries `ON DELETE CASCADE`, the delete also
removes every task row referencing the deleted subject. -/
def deleteSubject (db : Database) (id : String) : Database :=
  { subjects := db.subjects.filter (fun s => s.id != id),
    tasks := db.tasks.filter (fun t => t.subject_id != some id) }

/-- `TasksPage.toggleTaskComplete`, client half: the `setTasks` update maps
the list, flipping `is_completed` of the task with the matching id. -/
def toggleTaskLocal (tasks : List Task) (task : Task) : List Task :=
  tasks.map (fun t =>
    if t.id == task.id then { t with is_completed := !t.is_completed } else t)

/-- `TasksPage.toggleTaskComplete`, gateway half:
`UPDATE tasks SET is_completed = NOT task.is_completed WHERE id = task.id`,
with the `update_tasks_updated_at` trigger stamping `updated_at = now()`
on every updated row. -/
def toggleTaskDb (db : Database) (task : Task) (now : Int) : Database :=
  { db with
    tasks := db.tasks.map (fun r =>
      if r.id == task.id then
        { r with is_completed := !task.is_completed, updated_at := now }
      else r) }

/-- A task row with its mutable-by-toggle fields blanked: two rows with equal
`withoutToggleFields` agree on every field other than `is_completed` and
`updated_at`. -/
def TaskRow.withoutToggleFields (r : TaskRow) : TaskRow :=
  { r with is_completed := false, updated_at := 0 }

/-! ## TaskForm due-date serialization

`TaskForm.onSubmit` stores
`` `${getFullYear()}-${pad(getMonth()+1)}-${pad(getDate())}` `` of the picked
`Date` — the zero-padded local civil date, i.e. exactly the local calendar
day in which the picked instant falls (no UTC shift).  In the epoch-day model
that `"YYYY-MM-DD"` value is the local day number of the picked instant. -/

/-- The `DATE` value (epoch day number) that `TaskForm.onSubmit` persists for
a picked instant `picked` in a locale with offset `ofs`. -/
def TaskForm.serializedDueDate (ofs picked : Int) : Int := localDay ofs picked

/-! ## Notification poller (`useNotifications.checkUpcomingItems`)

Inputs: the current instant `t` in **milliseconds** since epoch, the locale
offset `ofs` in minutes, and the user's subjects and tasks (the supabase
queries are modelled as list filters over them).  Display-only fields
(`message`, `time`, `data`, the random `id`) are omitted from the emitted
items; `type`, `title` and `priority` are kept. -/

/-- An emitted notification (discriminant, title, priority). -/
structure NotificationItem where
  type : String
  title : String
  priority : String
deriving DecidableEq, Repr

/-- Milliseconds since local midnight of the instant `t` (ms since epoch) at
offset `ofs` minutes. -/
def localMsOfDay (ofs t : Int) : Int := (t + ofs * 60000) % 86400000

/-- `now.getHours()` for instant `t` (ms) at offset `ofs`. -/
def jsGetHours (ofs t : Int) : Int := localMsOfDay ofs t / 3600000

/-- `now.getMinutes()` for instant `t` (ms) at offset `ofs`. -/
def jsGetMinutes (ofs t : Int) : Int := (localMsOfDay ofs t / 60000) % 60

/-- The local epoch day in which the instant `t` (ms) falls. -/
def localDayMs (ofs t : Int) : Int := (t + ofs * 60000) / 86400000

/-- The UTC epoch day of instant `t` (ms): the date part of
`toISOString()`, used by the poller's `due_date` query strings. -/
def utcDayMs (t : Int) : Int := t / 86400000

/-- `useNotifications.checkUpcomingItems` at instant `t` (ms since epoch),
offset `ofs` (minutes): classes of today's weekday starting within 15 minutes
(high priority); incomplete tasks due today (priority mirroring the task's);
and, only in the 08:00 minute, one medium summary reminder if any incomplete
task is due tomorrow.  `today`/`tomorrow` query strings come from
`toISOString()`, hence are UTC dates; `tomorrow.setDate(+1)` adds one day. -/
def checkUpcomingItems (ofs t : Int) (subjects : List Subject)
    (tasks : List Task) : List NotificationItem :=
  let classNotifs :=
    (subjects.filter (fun s => s.day_of_week == jsGetDay (localDayMs ofs t))).filterMap
      (fun subject =>
        let classMs := (subject.startHours * 60 + subject.startMinutes) * 60000
        let minutesUntilClass := (classMs - localMsOfDay ofs t).tdiv 60000
        if 0 < minutesUntilClass ∧ minutesUntilClass ≤ 15 then
          some { type := "class",
                 title := "Kelas " ++ subject.name ++ " Segera Dimulai",
                 priority := "high" }
        else none)
  let taskNotifs :=
    (tasks.filter (fun task =>
        task.due_date == utcDayMs t && !task.is_completed)).map
      (fun task =>
        { type := "task", title := "Tugas Jatuh Tempo Hari Ini",
          priority := if task.priority == 3 then "high"
            else if task.priority == 2 then "medium" else "low" })
  let reminderNotifs :=
    if jsGetHours ofs t == 8 && jsGetMinutes ofs t == 0 then
      let tomorrowTasks := tasks.filter (fun task =>
        task.due_date == utcDayMs t + 1 && !task.is_completed)
      if tomorrowTasks.length > 0 then
        [{ type := "reminder", title := "Pengingat Tugas Besok",
           priority := "medium" }]
      else []
    else []
  classNotifs ++ taskNotifs ++ reminderNotifs

/-! ## Sample data (used by witnesses and counterexamples) -/

/-- Sample subject ("Math", Mondays 08:00-09:30). -/
def sampleSubject : Subject :=
  { id := "s1", name := "Math", day_of_week := 1, startHours := 8,
    startMinutes := 0, endHours := 9, endMinutes := 30, location := none,
    color := "#3B82F6" }

/-- Sample incomplete task due 2025-03-03 (day 20150), high priority,
referencing `sampleSubject`. -/
def sampleTask : Task :=
  { id := "t1", title := "Homework", description := none, due_date := 20150,
    priority := 3, is_completed := false, subject_id := some "s1",
    subjectJoin := some ("Math", "#3B82F6") }

/-- `sampleTask` with the completion flag set. -/
def sampleTaskDone : Task := { sampleTask with is_completed := true }

/-- Persisted row of `sampleSubject`. -/
def sampleSubjectRow : SubjectRow :=
  { id := "s1", user_id := "u1", name := "Math", day_of_week := 1,
    startHours := 8, startMinutes := 0, endHours := 9, endMinutes := 30,
    location := none, color := "#3B82F6", created_at := 0, updated_at := 0 }

/-- Persisted row of `sampleTask`. -/
def sampleTaskRow : TaskRow :=
  { id := "t1", user_id := "u1", subject_id := some "s1", title := "Homework",
    description := none, due_date := 20150, priority := 3,
    is_completed := false, created_at := 0, updated_at := 0 }

/-- Sample database: one subject, one task referencing it. -/
def sampleDb : Database :=
  { subjects := [sampleSubjectRow], tasks := [sampleTaskRow] }

/-! ## Helper lemmas -/

/-- Subject events generated by the day/subject double loop never carry task
data. -/
theorem subjectLoop_filter_task_eq_nil (ofs : Int) (subjects : List Subject)
    (days : List Int) (p : CalendarEvent → Bool)
    (hp : ∀ s d, p { data := .subject s, date := localMidnight ofs d } = false) :
    ((days.flatMap (fun d =>
      (subjects.filter (fun subject => jsGetDay d == subject.day_of_week)).map
        (fun subject =>
          ({ data := .subject subject, date := localMidnight ofs d } :
            CalendarEvent)))).filter p) = [] := by
  rw [List.filter_eq_nil_iff]
  intro ev hev
  rw [List.mem_flatMap] at hev
  obtain ⟨d, -, hm⟩ := hev
  rw [List.mem_map] at hm
  obtain ⟨s, -, rfl⟩ := hm
  simp [hp]

/-- Filtering the mapped task events for the events of one task `t` keeps
exactly the copies of `t`, mapped. -/
theorem taskMap_filter_eq (tasks : List Task) (t : Task) (g : Task → Int) :
    ((tasks.map (fun task =>
        ({ data := .task task, date := g task } : CalendarEvent))).filter
      (fun ev => ev.data == EventData.task t))
    = (tasks.filter (fun task => task == t)).map
        (fun task => { data := .task task, date := g task }) := by
  rw [List.filter_map]
  congr 1
  apply List.filter_congr
  intro x _
  simp [Function.comp]

/-- Count of copies of an element satisfying an extra condition. -/
theorem length_filter_beq_and {α : Type} [DecidableEq α] (l : List α) (a : α)
    (p : α → Bool) :
    (l.filter (fun x => (x == a) && p x)).length
      = if p a then l.count a else 0 := by
  induction l with
  | nil => simp
  | cons x xs ih =>
    by_cases hxa : x = a
    · subst hxa
      by_cases hp : p x
      · simp [List.filter_cons, List.count_cons, hp, ih]
      · simp [List.filter_cons, List.count_cons, hp, ih]
    · have hbeq : (x == a) = false := by simp [hxa]
      simp [List.filter_cons, List.count_cons, hbeq, ih, hxa]

/-- On one day `d`, the subject loop emits `subjects.count subj` occurrences
of `subj` if `d`'s weekday matches `subj.day_of_week`, and none otherwise. -/
theorem perDay_subject_count (ofs : Int) (subjects : List Subject)
    (subj : Subject) (d : Int) :
    (((subjects.filter (fun s => jsGetDay d == s.day_of_week)).map
        (fun s => ({ data := .subject s, date := localMidnight ofs d } :
          CalendarEvent))).filter
      (fun ev => ev.data == EventData.subject subj)).length
    = if jsGetDay d == subj.day_of_week then subjects.count subj else 0 := by
  rw [List.filter_map, List.length_map, List.filter_filter]
  have hcong :
      (subjects.filter (fun s =>
        ((fun ev => ev.data == EventData.subject subj) ∘
          (fun s => ({ data := .subject s, date := localMidnight ofs d } :
            CalendarEvent))) s
        && (jsGetDay d == s.day_of_week)))
      = subjects.filter (fun s =>
          (s == subj) && (jsGetDay d == s.day_of_week)) := by
    apply List.filter_congr
    intro x _
    by_cases hxs : x = subj
    · simp [Function.comp, hxs]
    · have hA : (EventData.subject x == EventData.subject subj) = false := by
        simp [hxs]
      have hB : (x == subj) = false := by simp [hxs]
      simp [Function.comp, hA, hB]
  rw [hcong, length_filter_beq_and]

/-- Over any list of days, the subject loop emits one occurrence of `subj`
per copy of `subj` in `subjects` per matching day. -/
theorem days_subject_count (ofs : Int) (subjects : List Subject)
    (subj : Subject) (days : List Int) :
    ((days.flatMap (fun d =>
        (subjects.filter (fun subject => jsGetDay d == subject.day_of_week)).map
          (fun subject =>
            ({ data := .subject subject, date := localMidnight ofs d } :
              CalendarEvent)))).filter
      (fun ev => ev.data == EventData.subject subj)).length
    = subjects.count subj *
        (days.filter (fun d => jsGetDay d == subj.day_of_week)).length := by
  induction days with
  | nil => simp
  | cons d ds ih =>
    rw [List.flatMap_cons, List.filter_append, List.length_append, ih,
      perDay_subject_count, List.filter_cons]
    by_cases h : jsGetDay d == subj.day_of_week
    · simp [h, Nat.mul_succ]
      omega
    · simp [h]

/-- Every task event of the page materializer for task `t` is dated at local
midnight of `t.due_date`. -/
theorem page_task_event_date (ofs : Int) (subjects : List Subject)
    (tasks : List Task) (s e : Int) (t : Task) :
    ∀ ev ∈ CalendarPage.generateCalendarEvents ofs subjects tasks s e,
      ev.data = EventData.task t → ev.date = localMidnight ofs t.due_date := by
  intro ev hev hdata
  rcases List.mem_append.1 hev with h | h
  · rw [List.mem_flatMap] at h
    obtain ⟨d, -, hm⟩ := h
    rw [List.mem_map] at hm
    obtain ⟨s', -, rfl⟩ := hm
    simp at hdata
  · rw [List.mem_map] at h
    obtain ⟨task, -, rfl⟩ := h
    simp only [EventData.task.injEq] at hdata
    rw [hdata]

/-- Every task event of the widget materializer for task `t` is dated at UTC
midnight of `t.due_date`. -/
theorem widget_task_event_date (ofs : Int) (subjects : List Subject)
    (tasks : List Task) (s e : Int) (t : Task) :
    ∀ ev ∈ CalendarWidget.generateCalendarEvents ofs subjects tasks s e,
      ev.data = EventData.task t → ev.date = utcMidnight t.due_date := by
  intro ev hev hdata
  rcases List.mem_append.1 hev with h | h
  · rw [List.mem_flatMap] at h
    obtain ⟨d, -, hm⟩ := h
    rw [List.mem_map] at hm
    obtain ⟨s', -, rfl⟩ := hm
    simp at hdata
  · rw [List.mem_map] at h
    obtain ⟨task, -, rfl⟩ := h
    simp only [EventData.task.injEq] at hdata
    rw [hdata]

/-- The day loop is empty when the range is inverted. -/
theorem daysInRange_eq_nil {s e : Int} (h : e < s) : daysInRange s e = [] := by
  unfold daysInRange
  have h0 : (e + 1 - s).toNat = 0 := by omega
  rw [h0]
  rfl

/-- Local midnight of a day falls in that local day. -/
theorem localDay_localMidnight (ofs d : Int) :
    localDay ofs (localMidnight ofs d) = d := by
  unfold localDay localMidnight
  omega

/-- UTC midnight of a day falls in local day `d + ofs / 1440`. -/
theorem localDay_utcMidnight (ofs d : Int) :
    localDay ofs (utcMidnight d) = d + ofs / 1440 := by
  unfold localDay utcMidnight
  omega

/-! ## Claims -/

/-- C4: for every subject list without duplicates, every date range `[s,e]`
and every subject in the list, the page materializer emits exactly
`count(days d in [s,e] with weekday d = subject.day_of_week)` occurrences
for that subject, and zero when the subject's weekday never falls in the
range. -/
theorem claim_C4_subject_occurrence_count (ofs : Int) (subjects : List Subject)
    (tasks : List Task) (s e : Int) (subj : Subject)
    (hnd : subjects.Nodup) (hmem : subj ∈ subjects) :
    (((CalendarPage.generateCalendarEvents ofs subjects tasks s e).filter
        (fun ev => ev.data == EventData.subject subj)).length
      = ((daysInRange s e).filter
          (fun d => jsGetDay d == subj.day_of_week)).length)
    ∧ ((∀ d ∈ daysInRange s e, jsGetDay d ≠ subj.day_of_week) →
        ((CalendarPage.generateCalendarEvents ofs subjects tasks s e).filter
          (fun ev => ev.data == EventData.subject subj)).length = 0) := by
  have hcount : subjects.count subj = 1 := List.count_eq_one_of_mem hnd hmem
  have htask : ((tasks.map (fun task =>
      ({ data := .task task, date := localMidnight ofs task.due_date } :
        CalendarEvent))).filter
      (fun ev => ev.data == EventData.subject subj)) = [] := by
    rw [List.filter_eq_nil_iff]
    intro ev hev
    rw [List.mem_map] at hev
    obtain ⟨task, -, rfl⟩ := hev
    simp
  have hmain :
      ((CalendarPage.generateCalendarEvents ofs subjects tasks s e).filter
        (fun ev => ev.data == EventData.subject subj)).length
      = ((daysInRange s e).filter
          (fun d => jsGetDay d == subj.day_of_week)).length := by
    unfold CalendarPage.generateCalendarEvents
    rw [List.filter_append, List.length_append, days_subject_count, hcount,
      one_mul, htask]
    simp
  refine ⟨hmain, fun hnone => ?_⟩
  rw [hmain]
  have : (daysInRange s e).filter
      (fun d => jsGetDay d == subj.day_of_week) = [] := by
    rw [List.filter_eq_nil_iff]
    intro d hd
    simpa using hnone d hd
  rw [this]
  rfl

/-- Witness for C4: Monday subject over the week 2025-03-01 .. 2025-03-07. -/
theorem claim_C4_subject_occurrence_count_witness :
    [sampleSubject].Nodup ∧ sampleSubject ∈ [sampleSubject] ∧
    ((CalendarPage.generateCalendarEvents 0 [sampleSubject] [] 20148 20154).filter
        (fun ev => ev.data == EventData.subject sampleSubject)).length
      = ((daysInRange 20148 20154).filter
          (fun d => jsGetDay d == sampleSubject.day_of_week)).length :=
  ⟨by decide, by decide,
    (claim_C4_subject_occurrence_count 0 [sampleSubject] [] 20148 20154
      sampleSubject (by decide) (by decide)).1⟩

/-- C5: for every task in a duplicate-free input list, the page materializer
emits exactly one occurrence for that task — dated at (local midnight of)
its `due_date` — with no hypothesis relating `due_date` to the requested
range `[s,e]`. -/
theorem claim_C5_one_occurrence_per_task (ofs : Int) (subjects : List Subject)
    (tasks : List Task) (s e : Int) (t : Task)
    (hnd : tasks.Nodup) (hmem : t ∈ tasks) :
    (CalendarPage.generateCalendarEvents ofs subjects tasks s e).filter
        (fun ev => ev.data == EventData.task t)
      = [{ data := .task t, date := localMidnight ofs t.due_date }] := by
  have hcount : tasks.count t = 1 := List.count_eq_one_of_mem hnd hmem
  unfold CalendarPage.generateCalendarEvents
  rw [List.filter_append,
    subjectLoop_filter_task_eq_nil ofs subjects (daysInRange s e) _
      (by intro s' d; simp),
    taskMap_filter_eq, List.filter_beq, hcount]
  rfl

/-- Witness for C5: one task whose due date (2025-03-03) lies outside the
requested range `[0,0]` (1970-01-01) still yields exactly one occurrence. -/
theorem claim_C5_one_occurrence_per_task_witness :
    [sampleTask].Nodup ∧ sampleTask ∈ [sampleTask] ∧
    (CalendarPage.generateCalendarEvents 0 [] [sampleTask] 0 0).filter
        (fun ev => ev.data == EventData.task sampleTask)
      = [{ data := .task sampleTask,
           date := localMidnight 0 sampleTask.due_date }] :=
  ⟨by decide, by decide,
    claim_C5_one_occurrence_per_task 0 [] [sampleTask] 0 0 sampleTask
      (by decide) (by decide)⟩

/-- C10: called with an inverted range (`rangeStart` after `rangeEnd`), both
materializers terminate with no subject occurrences and exactly one
occurrence per input task (the whole output is the task map). -/
theorem claim_C10_inverted_range (ofs : Int) (subjects : List Subject)
    (tasks : List Task) (s e : Int) (h : e < s) :
    CalendarPage.generateCalendarEvents ofs subjects tasks s e
        = tasks.map (fun task =>
            { data := .task task, date := localMidnight ofs task.due_date })
    ∧ CalendarWidget.generateCalendarEvents ofs subjects tasks s e
        = tasks.map (fun task =>
            { data := .task task, date := utcMidnight task.due_date }) := by
  unfold CalendarPage.generateCalendarEvents CalendarWidget.generateCalendarEvents
  rw [daysInRange_eq_nil h]
  simp

/-- Witness for C10 at the inverted range `[5,4]`. -/
theorem claim_C10_inverted_range_witness :
    (4 : Int) < 5 ∧
    CalendarPage.generateCalendarEvents 0 [sampleSubject] [sampleTask] 5 4
        = [sampleTask].map (fun task =>
            { data := .task task, date := localMidnight 0 task.due_date }) ∧
    CalendarWidget.generateCalendarEvents 0 [sampleSubject] [sampleTask] 5 4
        = [sampleTask].map (fun task =>
            { data := .task task, date := utcMidnight task.due_date }) :=
  ⟨by decide,
    (claim_C10_inverted_range 0 [sampleSubject] [sampleTask] 5 4 (by decide)).1,
    (claim_C10_inverted_range 0 [sampleSubject] [sampleTask] 5 4 (by decide)).2⟩

/-- Incomplete task due 2025-03-01 (epoch day 20148). -/
def sampleTaskMar1 : Task := { sampleTask with due_date := daysFromCivil 2025 3 1 }

/-- Counterexample to C2 as stated: in a UTC-5 locale (`ofs = -300`) the
*widget* materializer dates the occurrence of a task due `"2025-03-01"` on
local 2025-02-28, not 2025-03-01 (the bare `new Date(due_date)` parse anchors
to UTC midnight). -/
theorem claim_C2_counterexample :
    ((CalendarWidget.generateCalendarEvents (-300) [] [sampleTaskMar1]
        (daysFromCivil 2025 3 1) (daysFromCivil 2025 3 1)).map
      (fun ev => localDay (-300) ev.date))
      = [daysFromCivil 2025 2 28]
    ∧ daysFromCivil 2025 2 28 ≠ daysFromCivil 2025 3 1 := by decide

/-- C2 (amended): the page materializer dates every task occurrence on the
local calendar day named by `due_date`, for every offset; the widget
materializer dates it on local day `due_date + ofs / 1440`, which in a
negative-offset locale (`-1440 < ofs < 0`, e.g. UTC-5) is the *previous*
day. -/
theorem claim_C2_task_occurrence_day (ofs : Int) (subjects : List Subject)
    (tasks : List Task) (s e : Int) (t : Task) :
    (∀ ev ∈ CalendarPage.generateCalendarEvents ofs subjects tasks s e,
        ev.data = EventData.task t →
          localDay ofs ev.date = t.due_date)
    ∧ (∀ ev ∈ CalendarWidget.generateCalendarEvents ofs subjects tasks s e,
        ev.data = EventData.task t →
          localDay ofs ev.date = t.due_date + ofs / 1440)
    ∧ (-1440 < ofs → ofs < 0 → t.due_date + ofs / 1440 = t.due_date - 1) := by
  refine ⟨?_, ?_, ?_⟩
  · intro ev hev hdata
    rw [page_task_event_date ofs subjects tasks s e t ev hev hdata,
      localDay_localMidnight]
  · intro ev hev hdata
    rw [widget_task_event_date ofs subjects tasks s e t ev hev hdata,
      localDay_utcMidnight]
  · intro h1 h2
    omega

/-- Witness for the amended C2 at UTC-5 and due date 2025-03-01: the page
occurrence falls on local 2025-03-01. -/
theorem claim_C2_task_occurrence_day_witness :
    ({ data := .task sampleTaskMar1,
       date := localMidnight (-300) sampleTaskMar1.due_date } : CalendarEvent)
      ∈ CalendarPage.generateCalendarEvents (-300) [] [sampleTaskMar1]
          (daysFromCivil 2025 3 1) (daysFromCivil 2025 3 1)
    ∧ localDay (-300) (localMidnight (-300) sampleTaskMar1.due_date)
        = sampleTaskMar1.due_date
    ∧ sampleTaskMar1.due_date + (-300 : Int) / 1440
        = sampleTaskMar1.due_date - 1 :=
  ⟨by decide,
    (claim_C2_task_occurrence_day (-300) [] [sampleTaskMar1]
      (daysFromCivil 2025 3 1) (daysFromCivil 2025 3 1) sampleTaskMar1).1
      { data := .task sampleTaskMar1,
        date := localMidnight (-300) sampleTaskMar1.due_date }
      (by decide) rfl,
    (claim_C2_task_occurrence_day (-300) [] [sampleTaskMar1]
      (daysFromCivil 2025 3 1) (daysFromCivil 2025 3 1) sampleTaskMar1).2.2
      (by decide) (by decide)⟩

/-- The task picked at a mid-day instant of local 2025-03-05 in a UTC-5
locale, with `due_date` as serialized by the task form. -/
def sampleTaskPicked : Task :=
  { sampleTask with
    due_date := TaskForm.serializedDueDate (-300) (20152 * 1440 + 753) }

/-- C9: the task form serializes the picked date from its *local* calendar
components (no UTC shift) and the page materializer parses the stored value
back at *local* midnight, so the materialized occurrence falls on the same
local calendar day the user picked. -/
theorem claim_C9_due_date_roundtrip (ofs picked : Int)
    (subjects : List Subject) (tasks : List Task) (s e : Int) (t : Task)
    (hdue : t.due_date = TaskForm.serializedDueDate ofs picked) :
    ∀ ev ∈ CalendarPage.generateCalendarEvents ofs subjects tasks s e,
      ev.data = EventData.task t →
        localDay ofs ev.date = localDay ofs picked := by
  intro ev hev hdata
  rw [page_task_event_date ofs subjects tasks s e t ev hev hdata,
    localDay_localMidnight, hdue]
  rfl

/-- Witness for C9 at UTC-5 with a pick at 12:33 local time of 2025-03-05. -/
theorem claim_C9_due_date_roundtrip_witness :
    sampleTaskPicked.due_date
        = TaskForm.serializedDueDate (-300) (20152 * 1440 + 753)
    ∧ localDay (-300) (localMidnight (-300) sampleTaskPicked.due_date)
        = localDay (-300) (20152 * 1440 + 753) :=
  ⟨rfl,
    claim_C9_due_date_roundtrip (-300) (20152 * 1440 + 753) [] [sampleTaskPicked]
      0 0 sampleTaskPicked rfl
      { data := .task sampleTaskPicked,
        date := localMidnight (-300) sampleTaskPicked.due_date }
      (by decide) rfl⟩

/-- C8: on identical inputs the two sibling materializers produce identical
subject occurrences, and differ only in the `date` assigned to task
occurrences: the widget's output is exactly the page's output with each task
occurrence's date replaced by the UTC-midnight parse of its `due_date`. -/
theorem claim_C8_sibling_materializers (ofs : Int) (subjects : List Subject)
    (tasks : List Task) (s e : Int) :
    ((CalendarPage.generateCalendarEvents ofs subjects tasks s e).filter
        (fun ev => ev.type == "subject")
      = (CalendarWidget.generateCalendarEvents ofs subjects tasks s e).filter
        (fun ev => ev.type == "subject"))
    ∧ CalendarWidget.generateCalendarEvents ofs subjects tasks s e
      = (CalendarPage.generateCalendarEvents ofs subjects tasks s e).map
          (fun ev => match ev.data with
            | .task task => { ev with date := utcMidnight task.due_date }
            | .subject _ => ev) := by
  have hp : ∀ (g : Task → Int),
      ((tasks.map (fun task =>
          ({ data := .task task, date := g task } : CalendarEvent))).filter
        (fun ev => ev.type == "subject")) = [] := by
    intro g
    rw [List.filter_eq_nil_iff]
    intro ev hev
    rw [List.mem_map] at hev
    obtain ⟨task, -, rfl⟩ := hev
    simp [CalendarEvent.type]
  constructor
  · unfold CalendarPage.generateCalendarEvents CalendarWidget.generateCalendarEvents
    rw [List.filter_append, List.filter_append, hp, hp]
  · unfold CalendarPage.generateCalendarEvents CalendarWidget.generateCalendarEvents
    rw [List.map_append]
    congr 1
    · have h1 : ∀ ev ∈ (daysInRange s e).flatMap (fun d =>
          (subjects.filter (fun subject => jsGetDay d == subject.day_of_week)).map
            (fun subject =>
              ({ data := .subject subject, date := localMidnight ofs d } :
                CalendarEvent))),
          (fun ev => match ev.data with
            | .task task => { ev with date := utcMidnight task.due_date }
            | .subject _ => ev) ev = id ev := by
        intro ev hev
        rw [List.mem_flatMap] at hev
        obtain ⟨d, -, hm⟩ := hev
        rw [List.mem_map] at hm
        obtain ⟨s', -, rfl⟩ := hm
        rfl
      rw [List.map_congr_left h1, List.map_id]
    · rw [List.map_map]
      apply List.map_congr_left
      intro task _
      rfl

/-- C3: day classification follows the stated precedence, first match wins:
subject + incomplete task → "mixed" gradient; subject and no incomplete task
→ "class" (in particular a day with a subject occurrence and only completed
tasks is "class", not "mixed" or "completed"); no subject + incomplete task
→ "pending-task"; no subject, no incomplete task, some completed task →
"completed-task"; no occurrences → "" (empty). -/
theorem claim_C3_day_classification (ofs : Int) (events : List CalendarEvent)
    (date : Int) :
    ((∃ e ∈ getEventsForDate ofs events date, e.type = "subject") →
      (∃ e ∈ getEventsForDate ofs events date,
          e.type = "task" ∧ e.taskIsCompleted = false) →
      getDateClassName ofs events date =
        "bg-gradient-to-br from-primary/30 to-warning/30 hover:from-primary/40 hover:to-warning/40")
    ∧ ((∃ e ∈ getEventsForDate ofs events date, e.type = "subject") →
      (∀ e ∈ getEventsForDate ofs events date,
          e.type = "task" → e.taskIsCompleted = true) →
      getDateClassName ofs events date = "bg-primary/30 hover:bg-primary/40")
    ∧ ((∀ e ∈ getEventsForDate ofs events date, e.type ≠ "subject") →
      (∃ e ∈ getEventsForDate ofs events date,
          e.type = "task" ∧ e.taskIsCompleted = false) →
      getDateClassName ofs events date = "bg-warning/30 hover:bg-warning/40")
    ∧ ((∀ e ∈ getEventsForDate ofs events date, e.type ≠ "subject") →
      (∀ e ∈ getEventsForDate ofs events date,
          e.type = "task" → e.taskIsCompleted = true) →
      (∃ e ∈ getEventsForDate ofs events date,
          e.type = "task" ∧ e.taskIsCompleted = true) →
      getDateClassName ofs events date = "bg-success/30 hover:bg-success/40")
    ∧ (getEventsForDate ofs events date = [] →
      getDateClassName ofs events date = "") := by
  refine ⟨?_, ?_, ?_, ?_, ?_⟩
  · rintro ⟨e1, he1, ht1⟩ ⟨e2, he2, ht2, hc2⟩
    have hne : (getEventsForDate ofs events date).length ≠ 0 := by
      intro h0
      rw [List.length_eq_zero] at h0
      rw [h0] at he1
      exact (List.not_mem_nil e1) he1
    have hS : (getEventsForDate ofs events date).any
        (fun e => e.type == "subject") = true := by
      rw [List.any_eq_true]
      exact ⟨e1, he1, by simp [ht1]⟩
    have hT : (getEventsForDate ofs events date).any
        (fun e => e.type == "task" && !e.taskIsCompleted) = true := by
      rw [List.any_eq_true]
      exact ⟨e2, he2, by simp [ht2, hc2]⟩
    simp only [getDateClassName]
    rw [if_neg hne, hS, hT]
    rfl
  · rintro ⟨e1, he1, ht1⟩ hall
    have hne : (getEventsForDate ofs events date).length ≠ 0 := by
      intro h0
      rw [List.length_eq_zero] at h0
      rw [h0] at he1
      exact (List.not_mem_nil e1) he1
    have hS : (getEventsForDate ofs events date).any
        (fun e => e.type == "subject") = true := by
      rw [List.any_eq_true]
      exact ⟨e1, he1, by simp [ht1]⟩
    have hT : (getEventsForDate ofs events date).any
        (fun e => e.type == "task" && !e.taskIsCompleted) = false := by
      rw [List.any_eq_false]
      intro x hx
      simp only [Bool.and_eq_true, beq_iff_eq, Bool.not_eq_true']
      rintro ⟨hty, hcf⟩
      rw [hall x hx hty] at hcf
      exact Bool.noConfusion hcf
    simp only [getDateClassName]
    rw [if_neg hne, hS, hT]
    rfl
  · rintro hnosub ⟨e2, he2, ht2, hc2⟩
    have hne : (getEventsForDate ofs events date).length ≠ 0 := by
      intro h0
      rw [List.length_eq_zero] at h0
      rw [h0] at he2
      exact (List.not_mem_nil e2) he2
    have hS : (getEventsForDate ofs events date).any
        (fun e => e.type == "subject") = false := by
      rw [List.any_eq_false]
      intro x hx
      simpa using hnosub x hx
    have hT : (getEventsForDate ofs events date).any
        (fun e => e.type == "task" && !e.taskIsCompleted) = true := by
      rw [List.any_eq_true]
      exact ⟨e2, he2, by simp [ht2, hc2]⟩
    simp only [getDateClassName]
    rw [if_neg hne, hS, hT]
    rfl
  · rintro hnosub hall ⟨e3, he3, ht3, hc3⟩
    have hne : (getEventsForDate ofs events date).length ≠ 0 := by
      intro h0
      rw [List.length_eq_zero] at h0
      rw [h0] at he3
      exact (List.not_mem_nil e3) he3
    have hS : (getEventsForDate ofs events date).any
        (fun e => e.type == "subject") = false := by
      rw [List.any_eq_false]
      intro x hx
      simpa using hnosub x hx
    have hT : (getEventsForDate ofs events date).any
        (fun e => e.type == "task" && !e.taskIsCompleted) = false := by
      rw [List.any_eq_false]
      intro x hx
      simp only [Bool.and_eq_true, beq_iff_eq, Bool.not_eq_true']
      rintro ⟨hty, hcf⟩
      rw [hall x hx hty] at hcf
      exact Bool.noConfusion hcf
    have hC : (getEventsForDate ofs events date).any
        (fun e => e.type == "task" && e.taskIsCompleted) = true := by
      rw [List.any_eq_true]
      exact ⟨e3, he3, by simp [ht3, hc3]⟩
    simp only [getDateClassName]
    rw [if_neg hne, hS, hT, hC]
    rfl
  · intro h0
    simp only [getDateClassName]
    rw [h0]
    rfl

/-- Witness for C3 at the "in particular" case: one subject occurrence plus
one completed-task occurrence classifies as "class". -/
theorem claim_C3_day_classification_witness :
    getDateClassName 0
      [{ data := .subject sampleSubject, date := 0 },
       { data := .task sampleTaskDone, date := 0 }] 0
      = "bg-primary/30 hover:bg-primary/40" :=
  (claim_C3_day_classification 0
      [{ data := .subject sampleSubject, date := 0 },
       { data := .task sampleTaskDone, date := 0 }] 0).2.1
    (by decide) (by decide)

/-- Counterexample to C1 as stated: in a database holding subject "s1" and a
task "t1" referencing it, `deleteSubject "s1"` leaves *no* task at all —
the task is deleted by `ON DELETE CASCADE` rather than kept with its subject
reference removed. -/
theorem claim_C1_counterexample :
    (∀ r ∈ (deleteSubject sampleDb "s1").tasks, r.id ≠ "t1")
    ∧ ({ sampleTaskRow with subject_id := none }
        ∉ (deleteSubject sampleDb "s1").tasks)
    ∧ (∃ r ∈ sampleDb.tasks, r.id = "t1" ∧ r.subject_id = some "s1") := by
  decide

/-- C1 (amended): deleting a subject deletes every task whose subject
reference points at it (the persisted foreign key is `ON DELETE CASCADE`),
keeps every task not referencing it with all fields unchanged, and removes
the subject row itself. -/
theorem claim_C1_delete_subject_cascade (db : Database) (S : SubjectRow)
    (T : TaskRow) (hT : T ∈ db.tasks) :
    (T.subject_id = some S.id → T ∉ (deleteSubject db S.id).tasks)
    ∧ (T.subject_id ≠ some S.id → T ∈ (deleteSubject db S.id).tasks)
    ∧ S ∉ (deleteSubject db S.id).subjects := by
  refine ⟨?_, ?_, ?_⟩
  · intro heq hmem
    have hm : T ∈ db.tasks.filter (fun t => t.subject_id != some S.id) := hmem
    rw [List.mem_filter, heq] at hm
    simp at hm
  · intro hne
    have hm : T ∈ db.tasks.filter (fun t => t.subject_id != some S.id) :=
      List.mem_filter.mpr ⟨hT, by simpa using hne⟩
    exact hm
  · intro hmem
    have hm : S ∈ db.subjects.filter (fun s => s.id != S.id) := hmem
    rw [List.mem_filter] at hm
    simp at hm

/-- Witness for the amended C1 on the sample database. -/
theorem claim_C1_delete_subject_cascade_witness :
    sampleTaskRow ∈ sampleDb.tasks
    ∧ sampleTaskRow.subject_id = some sampleSubjectRow.id
    ∧ sampleTaskRow ∉ (deleteSubject sampleDb sampleSubjectRow.id).tasks :=
  ⟨by decide, by decide,
    (claim_C1_delete_subject_cascade sampleDb sampleSubjectRow sampleTaskRow
      (by decide)).1 (by decide)⟩

/-- Counterexample to C6 as stated: toggling the sample task twice (at times
1 and 2, starting from `updated_at = 0`) does not return the persisted row to
its original state, and already the first toggle changes `updated_at` — a
field other than `is_completed` — via the `update_tasks_updated_at`
trigger. -/
theorem claim_C6_counterexample :
    ((toggleTaskDb (toggleTaskDb sampleDb sampleTask 1) sampleTaskDone 2).tasks
      ≠ sampleDb.tasks)
    ∧ (∀ r ∈ (toggleTaskDb sampleDb sampleTask 1).tasks,
        r.updated_at ≠ sampleTaskRow.updated_at) := by
  decide

/-- C6 (amended): the client-side list state is restored exactly by a double
toggle; the persisted row after a double toggle (at times `n1`, `n2`) is
restored in every field except `updated_at`, which becomes `n2`; and a
single toggle alters no field other than `is_completed` and `updated_at`. -/
theorem claim_C6_toggle_completion (db : Database) (tasks : List Task)
    (task : Task) (n1 n2 : Int)
    (hsync : ∀ r ∈ db.tasks, r.id = task.id →
      r.is_completed = task.is_completed) :
    (toggleTaskLocal (toggleTaskLocal tasks task) task = tasks)
    ∧ ((toggleTaskDb (toggleTaskDb db task n1)
          { task with is_completed := !task.is_completed } n2).tasks
        = db.tasks.map (fun r =>
            if r.id == task.id then { r with updated_at := n2 } else r))
    ∧ ((toggleTaskDb db task n1).tasks.map TaskRow.withoutToggleFields
        = db.tasks.map TaskRow.withoutToggleFields) := by
  refine ⟨?_, ?_, ?_⟩
  · unfold toggleTaskLocal
    rw [List.map_map]
    have hpt : ∀ t : Task,
        ((fun t => if t.id == task.id then
            { t with is_completed := !t.is_completed } else t) ∘
          (fun t => if t.id == task.id then
            { t with is_completed := !t.is_completed } else t)) t = t := by
      intro t
      by_cases h : t.id == task.id
      · simp [Function.comp, h, Bool.not_not]
      · simp [Function.comp, h]
    rw [List.map_congr_left (fun t _ => hpt t), List.map_id']
  · show (db.tasks.map _).map _ = _
    rw [List.map_map]
    apply List.map_congr_left
    intro r hr
    simp only [Function.comp_apply]
    by_cases h : r.id = task.id
    · have hc := hsync r hr h
      simp [h, hc, Bool.not_not]
    · simp [h]
  · show (db.tasks.map _).map _ = _
    rw [List.map_map]
    apply List.map_congr_left
    intro r _
    simp only [Function.comp_apply]
    by_cases h : r.id = task.id
    · simp [h, TaskRow.withoutToggleFields]
    · simp [h]

/-- Witness for the amended C6 on the sample database at times 1 and 2. -/
theorem claim_C6_toggle_completion_witness :
    (∀ r ∈ sampleDb.tasks, r.id = sampleTask.id →
      r.is_completed = sampleTask.is_completed)
    ∧ toggleTaskLocal (toggleTaskLocal [sampleTask] sampleTask) sampleTask
        = [sampleTask]
    ∧ (toggleTaskDb (toggleTaskDb sampleDb sampleTask 1)
          { sampleTask with is_completed := !sampleTask.is_completed } 2).tasks
        = sampleDb.tasks.map (fun r =>
            if r.id == sampleTask.id then { r with updated_at := 2 } else r) :=
  ⟨by decide,
    (claim_C6_toggle_completion sampleDb [sampleTask] sampleTask 1 2
      (by decide)).1,
    (claim_C6_toggle_completion sampleDb [sampleTask] sampleTask 1 2
      (by decide)).2.1⟩

/-- Filtering a `filterMap` by a predicate that every produced element
falsifies yields the empty list. -/
theorem filter_filterMap_none {A B : Type} (l : List A) (f : A → Option B)
    (p : B → Bool) (hf : ∀ a x, f a = some x → p x = false) :
    (l.filterMap f).filter p = [] := by
  rw [List.filter_eq_nil_iff]
  intro x hx
  rw [List.mem_filterMap] at hx
  obtain ⟨a, -, ha⟩ := hx
  rw [hf a x ha]
  simp

/-- Filtering a `map` by a predicate that every image falsifies yields the
empty list. -/
theorem filter_map_none {A B : Type} (l : List A) (f : A → B) (p : B → Bool)
    (hf : ∀ a, p (f a) = false) :
    (l.map f).filter p = [] := by
  rw [List.filter_eq_nil_iff]
  intro x hx
  rw [List.mem_map] at hx
  obtain ⟨a, -, rfl⟩ := hx
  rw [hf a]
  simp

/-- The "reminder"-typed notifications emitted by the poller come exactly
from its 08:00 due-tomorrow branch. -/
theorem checkUpcomingItems_filter_reminder (ofs t : Int)
    (subjects : List Subject) (tasks : List Task) :
    (checkUpcomingItems ofs t subjects tasks).filter
        (fun n => n.type == "reminder")
      = if jsGetHours ofs t == 8 && jsGetMinutes ofs t == 0 then
          if (tasks.filter (fun task =>
              task.due_date == utcDayMs t + 1 && !task.is_completed)).length
              > 0 then
            [{ type := "reminder", title := "Pengingat Tugas Besok",
               priority := "medium" }]
          else []
        else [] := by
  have hclass := filter_filterMap_none
    (subjects.filter (fun s => s.day_of_week == jsGetDay (localDayMs ofs t)))
    (fun subject =>
      if 0 < ((subject.startHours * 60 + subject.startMinutes) * 60000
            - localMsOfDay ofs t).tdiv 60000 ∧
          ((subject.startHours * 60 + subject.startMinutes) * 60000
            - localMsOfDay ofs t).tdiv 60000 ≤ 15 then
        some ({ type := "class",
                title := "Kelas " ++ subject.name ++ " Segera Dimulai",
                priority := "high" } : NotificationItem)
      else none)
    (fun n => n.type == "reminder")
    (by
      intro a x h
      dsimp only at h
      split at h
      · cases h
        rfl
      · cases h)
  have htask := filter_map_none
    (tasks.filter (fun task =>
      task.due_date == utcDayMs t && !task.is_completed))
    (fun task =>
      ({ type := "task", title := "Tugas Jatuh Tempo Hari Ini",
         priority := if task.priority == 3 then "high"
           else if task.priority == 2 then "medium" else "low" } :
        NotificationItem))
    (fun n => n.type == "reminder")
    (by intro a; rfl)
  simp only [checkUpcomingItems]
  rw [List.filter_append, List.filter_append, hclass, htask]
  by_cases hcond : (jsGetHours ofs t == 8 && jsGetMinutes ofs t == 0) = true
  · rw [if_pos hcond]
    by_cases hlen : (tasks.filter (fun task =>
        task.due_date == utcDayMs t + 1 && !task.is_completed)).length > 0
    · rw [if_pos hlen]
      rfl
    · rw [if_neg hlen]
      rfl
  · rw [if_neg hcond]
    rfl

/-- C7: the poller emits a "tasks due tomorrow" reminder only when the
current wall-clock time has hour 8 and minute 0; then, if at least one
incomplete task is due tomorrow it emits exactly one medium-priority summary
alert, and if none exist it emits no reminder. -/
theorem claim_C7_tomorrow_reminder (ofs t : Int) (subjects : List Subject)
    (tasks : List Task) :
    ((¬(jsGetHours ofs t = 8 ∧ jsGetMinutes ofs t = 0)) →
      (checkUpcomingItems ofs t subjects tasks).filter
          (fun n => n.type == "reminder") = [])
    ∧ (jsGetHours ofs t = 8 → jsGetMinutes ofs t = 0 →
        ((∃ task ∈ tasks, task.due_date = utcDayMs t + 1
            ∧ task.is_completed = false) →
          (checkUpcomingItems ofs t subjects tasks).filter
              (fun n => n.type == "reminder")
            = [{ type := "reminder", title := "Pengingat Tugas Besok",
                 priority := "medium" }])
        ∧ ((∀ task ∈ tasks, task.due_date = utcDayMs t + 1 →
              task.is_completed = true) →
          (checkUpcomingItems ofs t subjects tasks).filter
              (fun n => n.type == "reminder") = [])) := by
  constructor
  · intro hcond
    have hb : (jsGetHours ofs t == 8 && jsGetMinutes ofs t == 0) = false := by
      by_contra hcontra
      rw [Bool.not_eq_false, Bool.and_eq_true, beq_iff_eq, beq_iff_eq]
        at hcontra
      exact hcond hcontra
    rw [checkUpcomingItems_filter_reminder, hb]
    rfl
  · intro h8 h0
    have hb : (jsGetHours ofs t == 8 && jsGetMinutes ofs t == 0) = true := by
      simp [h8, h0]
    constructor
    · rintro ⟨task, htm, hdue, hcomp⟩
      have hmem : task ∈ tasks.filter (fun task =>
          task.due_date == utcDayMs t + 1 && !task.is_completed) :=
        List.mem_filter.mpr ⟨htm, by simp [hdue, hcomp]⟩
      have hpos : 0 < (tasks.filter (fun task =>
          task.due_date == utcDayMs t + 1 && !task.is_completed)).length :=
        List.length_pos.mpr (fun hnil => by
          rw [hnil] at hmem
          exact (List.not_mem_nil task) hmem)
      rw [checkUpcomingItems_filter_reminder, hb, if_pos rfl, if_pos hpos]
    · intro hall
      have hnil : tasks.filter (fun task =>
          task.due_date == utcDayMs t + 1 && !task.is_completed) = [] := by
        rw [List.filter_eq_nil_iff]
        intro task htm
        simp only [Bool.and_eq_true, beq_iff_eq, Bool.not_eq_true']
        rintro ⟨hdue, hcomp⟩
        rw [hall task htm hdue] at hcomp
        exact Bool.noConfusion hcomp
      rw [checkUpcomingItems_filter_reminder, hb, if_pos rfl, hnil]
      rfl

/-- Incomplete task due 2025-03-04 (epoch day 20151). -/
def sampleTaskTomorrow : Task := { sampleTask with due_date := 20151 }

/-- Witness for C7 at 08:00 local time of 2025-03-03 (UTC locale) with one
incomplete task due 2025-03-04. -/
theorem claim_C7_tomorrow_reminder_witness :
    jsGetHours 0 (20150 * 86400000 + 8 * 3600000) = 8
    ∧ jsGetMinutes 0 (20150 * 86400000 + 8 * 3600000) = 0
    ∧ (checkUpcomingItems 0 (20150 * 86400000 + 8 * 3600000) []
        [sampleTaskTomorrow]).filter (fun n => n.type == "reminder")
      = [{ type := "reminder", title := "Pengingat Tugas Besok",
           priority := "medium" }] :=
  ⟨by decide, by decide,
    ((claim_C7_tomorrow_reminder 0 (20150 * 86400000 + 8 * 3600000) []
        [sampleTaskTomorrow]).2 (by decide) (by decide)).1 (by decide)⟩

end BelajarPintar
